import Mathlib

/-!
# Verification of the vncdotool RFB client against its specification

This development shallowly embeds the parts of `vncdotool`
(`vncdotool/rfb.py` and `vncdotool/client.py`) that the specification's
claims are about, and proves or refutes each claim.

Conventions:
* Python `bytes` are `List Nat`, each element `< 256` where it matters.
* Fallible Python code (raised exceptions, `struct.error`, PIL errors)
  is embedded as `Option`-returning functions, `none` = raise.
* PIL images are a size plus a pixel function (colors are RGB triples).
-/

namespace VncDoTool

/-! ## Pixel formats (`rfb.py`, class `PixelFormat`) -/

/-- Embedding of the frozen dataclass `PixelFormat` of `rfb.py`.
Field order matches the dataclass declaration (which is also the
`struct` pack order `!BB??HHHBBBxxx`). -/
structure PixelFormat where
  bpp : Nat := 32
  depth : Nat := 24
  bigendian : Bool := false
  truecolor : Bool := true
  redmax : Nat := 255
  greenmax : Nat := 255
  bluemax : Nat := 255
  redshift : Nat := 0
  greenshift : Nat := 8
  blueshift : Nat := 16
  deriving Repr, DecidableEq

/-- Python `int.bit_length()` for 16-bit values (sufficient for the
`max` fields, which are `u16` on the wire). -/
def bitlen (n : Nat) : Nat :=
  (List.range 17).foldl (fun acc i => if 2 ^ i ≤ n then i + 1 else acc) 0

/-- Validity of a `PixelFormat`, following the data model of the spec
(§3): `bpp ∈ {8,16,24,32}`, `depth ∈ [1, bpp]`, the three `max` fields
are `u16` values of the form `2^n - 1`, the three `shift` fields fit in
`bpp - bitlen(max)`.  These are exactly the assertions of the source's
`PixelFormat.__post_init__` (guarded there by the `VALIDATE` flag),
with the `u16`/`u8` field typing of the wire format. -/
def PixelFormat.valid (pf : PixelFormat) : Prop :=
  (pf.bpp = 8 ∨ pf.bpp = 16 ∨ pf.bpp = 24 ∨ pf.bpp = 32) ∧
  1 ≤ pf.depth ∧ pf.depth ≤ pf.bpp ∧
  (1 ≤ pf.redmax ∧ pf.redmax ≤ 0xFFFF ∧ pf.redmax &&& (pf.redmax + 1) = 0) ∧
  (1 ≤ pf.greenmax ∧ pf.greenmax ≤ 0xFFFF ∧ pf.greenmax &&& (pf.greenmax + 1) = 0) ∧
  (1 ≤ pf.bluemax ∧ pf.bluemax ≤ 0xFFFF ∧ pf.bluemax &&& (pf.bluemax + 1) = 0) ∧
  pf.redshift ≤ pf.bpp - bitlen pf.redmax ∧
  pf.greenshift ≤ pf.bpp - bitlen pf.greenmax ∧
  pf.blueshift ≤ pf.bpp - bitlen pf.bluemax

instance (pf : PixelFormat) : Decidable pf.valid := by
  unfold PixelFormat.valid; infer_instance

/-- `bool` packed with struct code `?`: one byte, 1 or 0. -/
def boolByte (b : Bool) : Nat := if b then 1 else 0

/-- `PixelFormat.to_bytes`: `STRUCT.pack(*astuple(self))` with format
`!BB??HHHBBBxxx`.  `struct.pack` raises `struct.error` when a `B` field
is not a byte or an `H` field not a 16-bit value, hence the `Option`. -/
def PixelFormat.to_bytes (pf : PixelFormat) : Option (List Nat) :=
  if pf.bpp ≤ 255 ∧ pf.depth ≤ 255 ∧
     pf.redmax ≤ 0xFFFF ∧ pf.greenmax ≤ 0xFFFF ∧ pf.bluemax ≤ 0xFFFF ∧
     pf.redshift ≤ 255 ∧ pf.greenshift ≤ 255 ∧ pf.blueshift ≤ 255 then
    some [pf.bpp, pf.depth, boolByte pf.bigendian, boolByte pf.truecolor,
          pf.redmax / 256, pf.redmax % 256,
          pf.greenmax / 256, pf.greenmax % 256,
          pf.bluemax / 256, pf.bluemax % 256,
          pf.redshift, pf.greenshift, pf.blueshift,
          0, 0, 0]
  else none

/-- `PixelFormat.from_bytes`: `STRUCT.unpack(block)` with format
`!BB??HHHBBBxxx`; `struct.unpack` requires exactly 16 bytes, and a `?`
field unpacks to `True` exactly when the byte is nonzero. -/
def PixelFormat.from_bytes (block : List Nat) : Option PixelFormat :=
  match block with
  | [bpp, depth, be, tc, rm1, rm0, gm1, gm0, bm1, bm0, rs, gs, bs, _, _, _] =>
    some { bpp := bpp, depth := depth,
           bigendian := be ≠ 0, truecolor := tc ≠ 0,
           redmax := 256 * rm1 + rm0,
           greenmax := 256 * gm1 + gm0,
           bluemax := 256 * bm1 + bm0,
           redshift := rs, greenshift := gs, blueshift := bs }
  | _ => none

/-! ## VNC-DES key mangling (`rfb.py`, `_vnc_des`) -/

/-- One step of `_vnc_des` key mangling: bit `i` of the password byte
becomes bit `7 - i` of the key byte.  This is the source expression
`sum((128 >> i) if (k & (1 << i)) else 0 for i in range(8))`. -/
def bitReverse8 (k : Nat) : Nat :=
  (List.range 8).foldl
    (fun acc i => acc + if k &&& (1 <<< i) ≠ 0 then 128 >>> i else 0) 0

/-- `_vnc_des(password)`: the password (as ASCII bytes) is formatted
with `f"{password:\0<8.8}"` — truncated to 8 characters and
left-justified with NUL padding to exactly 8 — and each byte is
bit-reversed. -/
def vncDesKey (password : List Nat) : List Nat :=
  let pw := password.take 8 ++ List.replicate (8 - password.length) 0
  pw.map bitReverse8

/-- `RFBClient.sendPassword`: mangle the password into a DES key and
write back the DES-ECB encryption of the stored 16-byte challenge.
DES itself lives in the external `PyCryptodome` collaborator
(spec §6, "Crypto primitives"), so it is a parameter here. -/
def sendPassword (desEcb : List Nat → List Nat → List Nat)
    (password challenge : List Nat) : List Nat :=
  desEcb (vncDesKey password) challenge

/-- ASCII bytes of the string `"password"`. -/
def passwordBytes : List Nat := [0x70, 0x61, 0x73, 0x73, 0x77, 0x6F, 0x72, 0x64]

/-! ## Version negotiation (`rfb.py`, `RFBClient._handleInitial`) -/

/-- Protocol versions are `(major, minor)` pairs. -/
abbrev Ver := Nat × Nat

/-- Python tuple ordering `v <= w` on version pairs. -/
def verLE (v w : Ver) : Bool :=
  v.1 < w.1 || (v.1 = w.1 && v.2 ≤ w.2)

/-- `RFBClient.SUPPORTED_SERVER_VERSIONS` (a Python `set`; listed here
in source order). -/
def SUPPORTED_SERVER_VERSIONS : List Ver :=
  [(3, 3), (3, 7), (3, 8), (3, 889), (4, 0), (4, 1), (5, 0)]

/-- `RFBClient.MAX_CLIENT_VERSION`. -/
def MAX_CLIENT_VERSION : Ver := (3, 8)

/-- `max(v for v in self.SUPPORTED_SERVER_VERSIONS if v <= version_server)`:
Python's `max` of the (tuple-ordered) filtered set; `max` of an empty
sequence raises `ValueError`, hence the `Option`. -/
def maxSupportedLE (server : Ver) : Option Ver :=
  (SUPPORTED_SERVER_VERSIONS.filter (fun v => verLE v server)).foldl
    (fun acc v =>
      match acc with
      | none => some v
      | some m => some (if verLE m v then v else m))
    none

/-- The byte translation `head.translate(self._HEADER_TRANSLATE)`:
ASCII digits map to `'0'` (48), all other bytes are unchanged. -/
def translateByte (b : Nat) : Nat := if 48 ≤ b ∧ b ≤ 57 then 48 else b

/-- The 12 bytes of `_HEADER = b"RFB 000.000\n"`. -/
def HEADER_BYTES : List Nat := [82, 70, 66, 32, 48, 48, 48, 46, 48, 48, 48, 10]

/-- Python `int()` of a 3-digit ASCII field such as `head[4:7]`. -/
def parse3 : List Nat → Nat
  | [a, b, c] => 100 * (a - 48) + 10 * (b - 48) + (c - 48)
  | _ => 0

/-- `b"RFB %03d.%03d\n" % version`: 3 ASCII digits for each component
(values here are always < 1000). -/
def digits3 (n : Nat) : List Nat := [48 + n / 100 % 10, 48 + n / 10 % 10, 48 + n % 10]

/-- The banner the client writes back for the chosen version. -/
def formatBanner (v : Ver) : List Nat :=
  [82, 70, 66, 32] ++ digits3 v.1 ++ [46] ++ digits3 v.2 ++ [10]

/-- Possible outcomes of `_handleInitial`. -/
inductive InitialResult where
  /-- The client wrote `banner` back and proceeds with `version`. -/
  | reply (version : Ver) (banner : List Nat)
  /-- `await self.disconnect()`: invalid initial server response. -/
  | disconnect
  /-- The buffered prefix is consistent with the header; keep waiting. -/
  | waitMore
  /-- An exception escaped the handler
  (`ValueError: max() arg is an empty sequence`). -/
  | error
  deriving Repr, DecidableEq

/-- `RFBClient._handleInitial`, as a function of the buffered bytes.
`head = self._packet[:12]`; if the digit-normalized head equals the
header template, parse the server version, take the largest supported
version `<=` it (`ValueError` if none), clamp to `MAX_CLIENT_VERSION`,
and write the banner back.  Otherwise disconnect unless the normalized
head is a proper prefix of the template. -/
def handleInitial (packet : List Nat) : InitialResult :=
  let head := packet.take 12
  let norm := head.map translateByte
  if norm = HEADER_BYTES then
    let versionServer : Ver :=
      (parse3 ((head.drop 4).take 3), parse3 ((head.drop 8).take 3))
    match maxSupportedLE versionServer with
    | none => .error
    | some vmax =>
      -- `if version > self.MAX_CLIENT_VERSION: version = self.MAX_CLIENT_VERSION`
      let version := if verLE vmax MAX_CLIENT_VERSION then vmax else MAX_CLIENT_VERSION
      .reply version (formatBanner version)
  -- `elif not self._HEADER.startswith(norm): ... disconnect`
  else if norm = HEADER_BYTES.take norm.length then .waitMore
  else .disconnect

/-! ## FramebufferUpdate rectangle loop
(`rfb.py`, `_handleFramebufferUpdate` / `_doConnection` / `_handleRectangle`) -/

/-- A rectangle position `(x, y, w, h)` as appended to `rectanglePos`. -/
abbrev Rect := Nat × Nat × Nat × Nat

/-- The encodings dispatched by `_handleRectangle`.  The first eight
consume payload and leave their position recorded; the QEMU pseudo
encodings un-record their position; `lastRect` zeroes the pending
count; anything else disconnects. -/
inductive Enc where
  | raw | copyRect | rre | corre | hextile | zrle
  | pseudoCursor | pseudoDesktopSize
  | qemuExtendedKey | qemuAudio
  | lastRect
  | unknown
  deriving Repr, DecidableEq

/-- Encodings that leave their rectangle recorded in `rectanglePos`
(everything `_handleRectangle` dispatches except the QEMU pseudo
encodings, `PSEUDO_LAST_RECT` and unknown encodings). -/
def Enc.isReal : Enc → Bool
  | .raw | .copyRect | .rre | .corre | .hextile | .zrle
  | .pseudoCursor | .pseudoDesktopSize => true
  | _ => false

/-- A rectangle header as read by `_handleRectangle` (12 bytes:
position plus encoding).  Payload bytes of real encodings are handled
by the per-encoding decoders and are not part of the loop accounting
modelled here. -/
structure RectItem where
  rect : Rect
  enc : Enc
  deriving Repr, DecidableEq

/-- Outcome of one FramebufferUpdate's rectangle loop. -/
inductive UpdOutcome where
  /-- `_doConnection` reached `rectangles == 0` with a non-empty
  `rectanglePos`: `commitUpdate(posL)` was invoked, `rest` headers
  remain unconsumed (reinterpreted as new messages by the dispatcher). -/
  | committed (posL : List Rect) (rest : List RectItem)
  /-- `rectangles == 0` with an empty `rectanglePos`: no commit. -/
  | noCommit (rest : List RectItem)
  /-- Pending rectangles remain but the input is exhausted: the client
  is awaiting more data. -/
  | awaiting (pending : Nat) (posL : List Rect)
  /-- An unknown encoding was received: `disconnect()`. -/
  | disconnected
  deriving Repr, DecidableEq

/-- `UpdOutcome` is a commit. -/
def UpdOutcome.didCommit : UpdOutcome → Bool
  | .committed _ _ => true
  | _ => false

/-- The `_doConnection` / `_handleRectangle` loop over rectangle
headers.  State: `pending` = `self.rectangles`, `posL` =
`self.rectanglePos`.  Per header: `PSEUDO_LAST_RECT` first zeroes
`pending`; if `pending` is then nonzero it is decremented and the
position appended, after which QEMU pseudo encodings delete the
appended position (`del self.rectanglePos[-1]`) and unknown encodings
disconnect. -/
def doConnectionLoop : Nat → List Rect → List RectItem → UpdOutcome
  | 0, posL, items => if posL.isEmpty then .noCommit items else .committed posL items
  | pending + 1, posL, [] => .awaiting (pending + 1) posL
  | pending + 1, posL, item :: rest =>
    -- `_handleRectangle`
    if item.enc = .lastRect then
      -- `self.rectangles = 0`, then `if self.rectangles:` is false
      doConnectionLoop 0 posL rest
    else
      let pending' := pending      -- `self.rectangles -= 1`
      let posL' := posL ++ [item.rect]  -- `self.rectanglePos.append(...)`
      match item.enc with
      | .qemuExtendedKey | .qemuAudio => doConnectionLoop pending' posL'.dropLast rest
      | .unknown => .disconnected
      | _ => doConnectionLoop pending' posL' rest

/-- `_handleFramebufferUpdate`: start the loop with `nRects` pending
and an empty position list. -/
def processUpdate (nRects : Nat) (items : List RectItem) : UpdOutcome :=
  doConnectionLoop nRects [] items

/-! ## ZRLE run lengths (`rfb.py`, `_handleDecodeZRLEdata`, `do_rle`) -/

/-- An RGB color triple (the host format; ZRLE `cpixel` reads 3 bytes
and appends alpha `0xFF`, modelled as the triple of the 3 bytes). -/
abbrev Color := Nat × Nat × Nat

/-- The run-length byte scan of `do_rle`:
`run_length = next(it); while run_length_next == 255: add next(it)`.
Returns the summed `run_length` (the emitted pixel count is one more)
and the remaining input; `none` models `next` on an exhausted
iterator. -/
def zrleRunLen : List Nat → Option (Nat × List Nat)
  | [] => none
  | b :: rest =>
    if b = 255 then
      match zrleRunLen rest with
      | some (n, rest') => some (255 + n, rest')
      | none => none
    else some (b, rest)

/-- The palette+RLE tile loop (`subencoding & 0x80` with
`palette_size != 0`): while fewer than `tgt = pixels_in_tile` pixels
are emitted, read an index byte; if its high bit is set, the low 7
bits select the palette entry and `do_rle` supplies the run, else a
single pixel of that entry is emitted.  After the loop the source
checks `num_pixels != pixels_in_tile` and raises (`none`).  `fuel`
bounds the iteration count (each iteration emits at least one pixel,
so `tgt` iterations suffice). -/
def zrlePaletteRleLoop (pal : List Color) (tgt : Nat) :
    Nat → Nat → List Nat → List Color → Option (List Color × List Nat)
  | fuel, num, input, acc =>
    if tgt ≤ num then
      if num = tgt then some (acc, input) else none
    else
      match fuel, input with
      | _, [] => none
      | 0, _ => none
      | fuel + 1, idx :: rest =>
        if 128 ≤ idx then
          match pal[idx - 128]? with
          | none => none
          | some c =>
            match zrleRunLen rest with
            | none => none
            | some (rl, rest') =>
              zrlePaletteRleLoop pal tgt fuel (num + (rl + 1)) rest'
                (acc ++ List.replicate (rl + 1) c)
        else
          match pal[idx]? with
          | none => none
          | some c => zrlePaletteRleLoop pal tgt fuel (num + 1) rest (acc ++ [c])

/-- Entry point of the palette+RLE tile decode for a tile of
`tgt` pixels. -/
def zrlePaletteRle (pal : List Color) (tgt : Nat) (input : List Nat) :
    Option (List Color × List Nat) :=
  zrlePaletteRleLoop pal tgt tgt 0 input []

/-! ## CoRRE decoding (`rfb.py`, `_handleDecodeCORRE` and
`_handleDecodeCORRERectangles`) -/

/-- A `fillRectangle(x, y, w, h, color)` call recorded by a decoder. -/
structure Fill where
  x : Nat
  y : Nat
  w : Nat
  h : Nat
  color : List Nat
  deriving Repr, DecidableEq

/-- Characters accepted by Python's `struct` module inside a format
string (after the optional byte-order prefix): repeat-count digits and
the conversion codes. -/
def validStructChar (c : Char) : Bool :=
  c.isDigit ||
  c ∈ ['x', 'c', 'b', 'B', '?', 'h', 'H', 'i', 'I', 'l', 'L',
       'q', 'Q', 'n', 'N', 'e', 'f', 'd', 's', 'p', 'P', ' ']

/-- The format string of `_handleDecodeCORRERectangles`:
`format = "!{self.bypp}sBBBB"`.  The source is missing the `f` prefix,
so the braces and the text between them are *literal characters* of
the format string. -/
def correFormatChars : List Char :=
  '!' :: Char.ofNat 123 :: "self.bypp".toList ++ Char.ofNat 125 :: "sBBBB".toList

/-- Whether a struct format (with byte-order prefix `!`) is valid:
every character after the prefix must be a struct conversion
character.  `struct.unpack` raises `struct.error` on a bad character. -/
def structFormatOk (fmt : List Char) : Bool :=
  match fmt with
  | '!' :: rest => rest.all validStructChar
  | rest => rest.all validStructChar

/-- `unpack(format, block[pos:pos+sz])` for one CoRRE subrectangle.
The intended interpretation of the (intended) format `!{bypp}sBBBB` is
`(color : bypp bytes, x : u8, y : u8, w : u8, h : u8)`; but the actual
format string `correFormatChars` contains literal braces, so
`struct.unpack` raises `struct.error` before looking at the data. -/
def unpackCorreSub (bypp : Nat) (bytes : List Nat) : Option (List Nat × Nat × Nat × Nat × Nat) :=
  if structFormatOk correFormatChars then
    -- unreachable: the format string is invalid
    match bytes.drop bypp with
    | [x, y, w, h] => some (bytes.take bypp, x, y, w, h)
    | _ => none
  else none

/-- The subrectangle loop of `_handleDecodeCORRERectangles`:
`pos = 0; sz = bypp + 4; while pos < sz: unpack ...; fill; pos += sz`.
Note the source's loop condition is `pos < sz` (the constant
subrectangle size), not `pos < end`. -/
def correSubLoop (bypp : Nat) (block : List Nat) (topx topy : Nat) :
    Nat → Nat → Option (List Fill)
  | _, 0 => some []
  | pos, fuel + 1 =>
    let sz := bypp + 4
    if pos < sz then
      match unpackCorreSub bypp ((block.drop pos).take sz) with
      | none => none
      | some (color, x, y, w, h) =>
        match correSubLoop bypp block topx topy (pos + sz) fuel with
        | none => none
        | some fills => some (⟨topx + x, topy + y, w, h, color⟩ :: fills)
    else some []

/-- `_handleDecodeCORRE` followed (when `nSub > 0`) by
`_handleDecodeCORRERectangles` on a block of `(4 + bypp) * nSub`
bytes.  `header` is the `4 + bypp`-byte block `(nSub : u32, bgColor)`;
the background fill is emitted first; the result is the list of
`fillRectangle` calls, or `none` if the decode raises. -/
def handleDecodeCORRE (bypp x y w h : Nat) (header : List Nat) (subBlock : List Nat) :
    Option (List Fill) :=
  match header.take 4 with
  | [n3, n2, n1, n0] =>
    let subrects := ((n3 * 256 + n2) * 256 + n1) * 256 + n0
    let bg := header.drop 4
    let bgFill : Fill := ⟨x, y, w, h, bg⟩
    if subrects ≠ 0 then
      match correSubLoop bypp subBlock x y 0 (subrects + 1) with
      | none => none
      | some fills => some (bgFill :: fills)
    else some [bgFill]
  | _ => none

/-! ## PIL image model (for `client.py`)

A PIL `Image` is modelled as a size plus a total pixel function;
only the values at coordinates inside the size are meaningful. -/

/-- An RGB image: PIL `Image` in mode `"RGB"`. -/
structure Img where
  w : Nat
  h : Nat
  pix : Nat → Nat → Color

/-- A 1-bit image: PIL `Image` in mode `"1"` (used for cursor masks). -/
structure Mask where
  w : Nat
  h : Nat
  pix : Nat → Nat → Bool

/-- `Image.new("RGB", (w, h), "black")`. -/
def Img.new (w h : Nat) : Img := ⟨w, h, fun _ _ => (0, 0, 0)⟩

/-- `dest.paste(src, (ox, oy))`: write `src` onto `dest` at the given
offset, clipped to `dest`; the destination size is unchanged. -/
def Img.paste (dest src : Img) (ox oy : Int) : Img :=
  ⟨dest.w, dest.h, fun x y =>
    let sx : Int := (x : Int) - ox
    let sy : Int := (y : Int) - oy
    if 0 ≤ sx ∧ sx < (src.w : Int) ∧ 0 ≤ sy ∧ sy < (src.h : Int) then
      src.pix sx.toNat sy.toNat
    else dest.pix x y⟩

/-- `dest.paste(src, (ox, oy), mask)`: as `paste` but only where the
mask is set; `mask = none` behaves as an unmasked paste. -/
def Img.pasteMask (dest src : Img) (mask : Option Mask) (ox oy : Int) : Img :=
  ⟨dest.w, dest.h, fun x y =>
    let sx : Int := (x : Int) - ox
    let sy : Int := (y : Int) - oy
    let maskBit : Bool :=
      match mask with
      | none => true
      | some m => m.pix sx.toNat sy.toNat
    if 0 ≤ sx ∧ sx < (src.w : Int) ∧ 0 ≤ sy ∧ sy < (src.h : Int) ∧ maskBit = true then
      src.pix sx.toNat sy.toNat
    else dest.pix x y⟩

/-- The PIL raw modes the client uses (`PF2IM` values in `client.py`). -/
inductive ImageMode where
  | RGB | RGBX | BGRsixteen | BGR | BGRX
  deriving Repr, DecidableEq

/-- Bytes per pixel of each raw mode. -/
def ImageMode.bytesPP : ImageMode → Nat
  | .RGB => 3
  | .RGBX => 4
  | .BGRsixteen => 2
  | .BGR => 3
  | .BGRX => 4

/-- PIL's raw unpacker for one pixel: `"RGB"`/`"RGBX"` take the first
three bytes as r,g,b; `"BGR"`/`"BGRX"` take them reversed;
`"BGR;16"` unpacks a little-endian 5-6-5 value. -/
def ImageMode.decodePixel : ImageMode → List Nat → Color
  | .RGB, r :: g :: b :: _ => (r, g, b)
  | .RGBX, r :: g :: b :: _ => (r, g, b)
  | .BGR, b :: g :: r :: _ => (r, g, b)
  | .BGRX, b :: g :: r :: _ => (r, g, b)
  | .BGRsixteen, lo :: hi :: _ =>
    let v := lo + 256 * hi
    ((v >>> 8) &&& 0xF8, (v >>> 3) &&& 0xFC, (v <<< 3) &&& 0xF8)
  | _, _ => (0, 0, 0)

/-- `Image.frombytes("RGB", (w, h), data, "raw", mode)`: requires
exactly `w * h * bytesPP` bytes (PIL raises `ValueError` otherwise;
zero-size images are permitted, as in Pillow ≥ 10). -/
def frombytes (mode : ImageMode) (w h : Nat) (data : List Nat) : Option Img :=
  if data.length = w * h * mode.bytesPP then
    some ⟨w, h, fun x y => mode.decodePixel ((data.drop ((y * w + x) * mode.bytesPP)).take mode.bytesPP)⟩
  else none

/-- `Image.frombytes("1", (w, h), data)`: a 1-bit image, MSB-first
within each byte, each row padded to a whole byte. -/
def frombytes1 (w h : Nat) (data : List Nat) : Option Mask :=
  let stride := (w + 7) / 8
  if data.length = stride * h then
    some ⟨w, h, fun x y =>
      (data.getD (y * stride + x / 8) 0) &&& (128 >>> (x % 8)) ≠ 0⟩
  else none

/-! ## High-level client state (`client.py`, `VNCDoToolClient`) -/

/-- A `pointerEvent(x, y, buttonmask)` sent to the server. -/
abbrev PointerEv := Int × Int × Nat

/-- The fields of `VNCDoToolClient` the claims are about: tracked
pointer `(x, y, buttons)`, the screen surface, the cursor overlay
(`cursor`, `cmask`, `cfocus`), the flags, and the trace of pointer
events written to the server. -/
structure ClientState where
  x : Int := 0
  y : Int := 0
  buttons : Nat := 0
  screen : Option Img := none
  cursor : Option Img := none
  cmask : Option Mask := none
  cfocus : Int × Int := (0, 0)
  nocursor : Bool := false
  image_mode : ImageMode := .RGBX  -- `PF2IM[rfb.PixelFormat()]` = `"RGBX"`
  events : List PointerEv := []

/-- `MAX_DESKTOP_SIZE = 0x10000`. -/
def MAX_DESKTOP_SIZE : Nat := 0x10000

/-- `mouseMove(x, y)`: set the tracked position, then send
`pointerEvent(x, y, self.buttons)`. -/
def mouseMove (st : ClientState) (x y : Int) : ClientState :=
  { st with x := x, y := y, events := st.events ++ [(x, y, st.buttons)] }

/-- Python `range(start, stop, step)` as a list (`step ≠ 0`; the
callers in `mouseDrag` always pass a nonzero step, `range` itself
raises `ValueError` on 0). -/
def pyRange (start stop step : Int) : List Int :=
  if 0 < step then
    (List.range ((stop - start + step - 1).toNat / step.toNat)).map
      (fun i => start + step * i)
  else if step < 0 then
    (List.range ((start - stop + (-step) - 1).toNat / (-step).toNat)).map
      (fun i => start + step * i)
  else []

/-- `mouseDrag(x, y, step)`: build the two step ranges from the current
position, walk the y steps (at the current x), then the x steps (at
the then-current y), then `mouseMove(x, y)`.  The 200 ms
`asyncio.sleep(0.2)` between the moves has no effect on the state and
is not modelled. -/
def mouseDrag (st : ClientState) (x y step : Int) : ClientState :=
  let xsteps := if x < st.x then pyRange (st.x - step) x (-step)
                else pyRange (st.x + step) x step
  let ysteps := if y < st.y then pyRange (st.y - step) y (-step)
                else pyRange (st.y + step) y step
  let st1 := ysteps.foldl (fun s ypos => mouseMove s s.x ypos) st
  let st2 := xsteps.foldl (fun s xpos => mouseMove s xpos s.y) st1
  mouseMove st2 x y

/-- `drawCursor()`: no-op without a cursor or a screen; otherwise
paste the cursor (through its mask) at the tracked pointer position
offset by the cursor focus. -/
def drawCursor (st : ClientState) : ClientState :=
  match st.cursor, st.screen with
  | some cur, some scr =>
    let px := st.x - st.cfocus.1
    let py := st.y - st.cfocus.2
    { st with screen := some (scr.pasteMask cur st.cmask px py) }
  | _, _ => st

/-- `VNCDoToolClient.updateRectangle(x, y, width, height, data)`:
empty data returns immediately; a size change relative to the current
screen wiggles the mouse; the decoded update either becomes the
screen, grows the screen (pasting old content at the origin on a black
canvas), or is pasted in place; finally the cursor is re-drawn.
`none` models a PIL `ValueError` from `frombytes`. -/
def updateRectangle (st : ClientState) (x y w h : Nat) (data : List Nat) :
    Option ClientState :=
  if data.isEmpty then some st  -- `if not data: return`
  else
    let sizeMismatch : Bool :=
      match st.screen with
      | some s => w != s.w || h != s.h
      | none => false
    let st := if sizeMismatch then mouseMove (mouseMove st w h) 0 0 else st
    match frombytes st.image_mode w h data with
    | none => none
    | some update =>
      let st :=
        match st.screen with
        | none => { st with screen := some update }
        | some s =>
          if s.w < x + w ∨ s.h < y + h then
            let ns := ((Img.new (max (x + w) s.w) (max (y + h) s.h)).paste s 0 0).paste
              update x y
            { st with screen := some ns }
          else { st with screen := some (s.paste update x y) }
      some (drawCursor st)

/-- `VNCDoToolClient.updateCursor(x, y, width, height, image, mask)`.
Note the source's zero-size guard `if not width or not height:
self.cursor = None` does **not** return: execution falls through and
unconditionally rebuilds `self.cursor`, `self.cmask` and `self.cfocus`
from the (empty) payload.  `none` models a PIL error. -/
def updateCursor (st : ClientState) (x y w h : Nat) (image mask : List Nat) :
    Option ClientState :=
  if st.nocursor then some st
  else
    let st := if w = 0 ∨ h = 0 then { st with cursor := none } else st
    match frombytes st.image_mode w h image, frombytes1 w h mask with
    | some cur, some msk =>
      some (drawCursor { st with cursor := some cur, cmask := some msk,
                                 cfocus := ((x : Int), (y : Int)) })
    | _, _ => none

/-- `VNCDoToolClient.updateDesktopSize(width, height)`: sizes outside
`[0, MAX_DESKTOP_SIZE)` raise `ValueError`; otherwise a fresh black
canvas of exactly `(width, height)` is created, the old screen (if
any) is pasted at the origin (clipped to the new canvas), and the
canvas becomes the screen. -/
def updateDesktopSize (st : ClientState) (w h : Nat) : Option ClientState :=
  if w < MAX_DESKTOP_SIZE ∧ h < MAX_DESKTOP_SIZE then
    let newScreen : Img :=
      match st.screen with
      | none => Img.new w h
      | some s => (Img.new w h).paste s 0 0
    some { st with screen := some newScreen }
  else none

/-- A sequence of `updateDesktopSize` calls. -/
def applyDesktopSizes (st : ClientState) (calls : List (Nat × Nat)) :
    Option ClientState :=
  calls.foldl (fun acc c => acc.bind (fun s => updateDesktopSize s c.1 c.2)) (some st)

/-! ## Helper definitions for the theorems -/

/-- The clamp `if version > self.MAX_CLIENT_VERSION: version =
self.MAX_CLIENT_VERSION` as a function. -/
def clampToClientMax (v : Ver) : Ver :=
  if verLE v MAX_CLIENT_VERSION then v else MAX_CLIENT_VERSION

/-- A 2×2 screen holding a non-black pixel at `(1,1)`, standing for a
surface produced by earlier updates. -/
def screen2x2 : Img := ⟨2, 2, fun a b => if a = 1 ∧ b = 1 then (5, 5, 5) else (0, 0, 0)⟩

/-- A client state with an existing cursor (for the PseudoCursor claim). -/
def stWithCursor : ClientState := { cursor := some (Img.new 3 3) }

/-- One step of Python `max` over an iterable of versions. -/
def verMaxStep (acc : Option Ver) (v : Ver) : Option Ver :=
  match acc with
  | none => some v
  | some m => some (if verLE m v then v else m)

theorem maxSupportedLE_eq_foldl (s : Ver) :
    maxSupportedLE s =
      (SUPPORTED_SERVER_VERSIONS.filter (fun v => verLE v s)).foldl verMaxStep none := by
  rfl

theorem foldl_verMaxStep_some (l : List Ver) (m : Ver) :
    ∃ r, l.foldl verMaxStep (some m) = some r := by
  induction l generalizing m with
  | nil => exact ⟨m, rfl⟩
  | cons v l ih =>
    simp only [List.foldl_cons, verMaxStep]
    exact ih _

theorem maxSupportedLE_isSome (s : Ver) (h : verLE (3, 3) s = true) :
    ∃ m, maxSupportedLE s = some m := by
  rw [maxSupportedLE_eq_foldl]
  have : SUPPORTED_SERVER_VERSIONS.filter (fun v => verLE v s) =
      (3, 3) :: ([(3, 7), (3, 8), (3, 889), (4, 0), (4, 1), (5, 0)].filter
        (fun v => verLE v s)) := by
    simp [SUPPORTED_SERVER_VERSIONS, List.filter, h]
  rw [this]
  simpa [verMaxStep] using foldl_verMaxStep_some _ (3, 3)

/-! ## C1 — version negotiation -/

/-- C1 (counterexample): the claim quantifies over banners with *any*
digit values, but for the well-formed banner `"RFB 003.002\n"` no
supported version is `<=` the server version, Python's `max` of the
empty sequence raises `ValueError`, and no banner is written back. -/
theorem C1_counterexample :
    handleInitial [82, 70, 66, 32, 48, 48, 51, 46, 48, 48, 50, 10] = .error := by
  decide

/-- C1 (amended): for every server banner `"RFB ddd.ddd\n"` whose
version is at least `(3,3)` (the smallest supported version), the
client selects the largest supported version `<=` the server version,
clamps it to `(3,8)`, and writes back the banner `RFB 00M.00m\n` for
the chosen version. -/
theorem C1_version_negotiation
    (d1 d2 d3 d4 d5 d6 : Nat)
    (h1 : 48 ≤ d1 ∧ d1 ≤ 57) (h2 : 48 ≤ d2 ∧ d2 ≤ 57) (h3 : 48 ≤ d3 ∧ d3 ≤ 57)
    (h4 : 48 ≤ d4 ∧ d4 ≤ 57) (h5 : 48 ≤ d5 ∧ d5 ≤ 57) (h6 : 48 ≤ d6 ∧ d6 ≤ 57)
    (hsup : verLE (3, 3) (100 * (d1 - 48) + 10 * (d2 - 48) + (d3 - 48),
                          100 * (d4 - 48) + 10 * (d5 - 48) + (d6 - 48)) = true) :
    ∃ m, maxSupportedLE (100 * (d1 - 48) + 10 * (d2 - 48) + (d3 - 48),
                         100 * (d4 - 48) + 10 * (d5 - 48) + (d6 - 48)) = some m ∧
      handleInitial [82, 70, 66, 32, d1, d2, d3, 46, d4, d5, d6, 10] =
        .reply (clampToClientMax m) (formatBanner (clampToClientMax m)) := by
  obtain ⟨m, hm⟩ := maxSupportedLE_isSome _ hsup
  refine ⟨m, hm, ?_⟩
  have t1 : translateByte d1 = 48 := by simp [translateByte, h1.1, h1.2]
  have t2 : translateByte d2 = 48 := by simp [translateByte, h2.1, h2.2]
  have t3 : translateByte d3 = 48 := by simp [translateByte, h3.1, h3.2]
  have t4 : translateByte d4 = 48 := by simp [translateByte, h4.1, h4.2]
  have t5 : translateByte d5 = 48 := by simp [translateByte, h5.1, h5.2]
  have t6 : translateByte d6 = 48 := by simp [translateByte, h6.1, h6.2]
  unfold handleInitial
  simp only [List.take, List.map, t1, t2, t3, t4, t5, t6, List.drop]
  norm_num [translateByte, HEADER_BYTES, parse3, hm, clampToClientMax]

/-- C1 (witness): the amended theorem applied to the banner
`"RFB 003.008\n"`. -/
theorem C1_witness :
    (48 ≤ 51 ∧ 51 ≤ 57) ∧
    ∃ m, maxSupportedLE (3, 8) = some m ∧
      handleInitial [82, 70, 66, 32, 48, 48, 51, 46, 48, 48, 56, 10] =
        .reply (clampToClientMax m) (formatBanner (clampToClientMax m)) :=
  ⟨by decide,
   C1_version_negotiation 48 48 51 48 48 56 (by decide) (by decide) (by decide)
     (by decide) (by decide) (by decide) (by decide)⟩

/-! ## C2 — VNC-DES key mangling -/

set_option maxRecDepth 100000 in
/-- Bit `i` of a byte becomes bit `7 - i` of its mangled form (checked
for all byte values). -/
theorem bitReverse8_testBit (k : Nat) (hk : k < 256) (j : Nat) (hj : j < 8) :
    (bitReverse8 k).testBit (7 - j) = k.testBit j := by
  revert j
  revert k
  decide

/-- C2 (counterexample): the mangled DES key for the password
`"password"` is `[0E, 86, CE, CE, EE, F6, 4E, 26]`, not the claimed
`[0E, 0A, 0C, 0E, 96, 0E, 8E, 0C]` (e.g. `'a' = 0x61` bit-reverses to
`0x86`, not `0x0A`). -/
theorem C2_counterexample :
    vncDesKey passwordBytes = [0x0E, 0x86, 0xCE, 0xCE, 0xEE, 0xF6, 0x4E, 0x26] ∧
    vncDesKey passwordBytes ≠ [0x0E, 0x0A, 0x0C, 0x0E, 0x96, 0x0E, 0x8E, 0x0C] := by
  decide

/-- C2 (amended): the password is truncated/NUL-padded to exactly 8
bytes and each byte is bit-reversed (bit `i` becomes bit `7 - i`) to
form the DES-ECB key; for the password `"password"` the mangled key is
`[0E, 86, CE, CE, EE, F6, 4E, 26]`; and the 16-byte challenge is
encrypted with DES-ECB (the external crypto primitive `desEcb`) under
that key and written back. -/
theorem C2_vnc_des (desEcb : List Nat → List Nat → List Nat)
    (password challenge : List Nat) (hpw : ∀ b ∈ password, b < 256) :
    (vncDesKey password).length = 8 ∧
    sendPassword desEcb password challenge = desEcb (vncDesKey password) challenge ∧
    (∀ i, i < 8 → ∀ j, j < 8 →
      ((vncDesKey password).getD i 0).testBit (7 - j) =
      ((password.take 8 ++ List.replicate (8 - password.length) 0).getD i 0).testBit j) ∧
    vncDesKey passwordBytes = [0x0E, 0x86, 0xCE, 0xCE, 0xEE, 0xF6, 0x4E, 0x26] := by
  have hlen : (password.take 8 ++ List.replicate (8 - password.length) 0).length = 8 := by
    simp [List.length_take, List.length_replicate]
    omega
  refine ⟨?_, rfl, ?_, by decide⟩
  · simp only [vncDesKey]
    rw [List.length_map]
    exact hlen
  · intro i hi j hj
    set pw := password.take 8 ++ List.replicate (8 - password.length) 0 with hpwdef
    have hi' : i < pw.length := by omega
    have hmem : pw.getD i 0 ∈ pw := by
      rw [List.getD_eq_getElem _ _ hi']
      exact List.getElem_mem _
    have hlt : pw.getD i 0 < 256 := by
      rcases List.mem_append.1 hmem with h | h
      · exact hpw _ (List.mem_of_mem_take h)
      · have := List.eq_of_mem_replicate h
        omega
    have hmap : (vncDesKey password).getD i 0 = bitReverse8 (pw.getD i 0) := by
      have : vncDesKey password = pw.map bitReverse8 := rfl
      rw [this, List.getD_eq_getElem _ _ (by simpa using hi'),
          List.getElem_map, List.getD_eq_getElem _ _ hi']
    rw [hmap]
    exact bitReverse8_testBit _ hlt j hj

/-- C2 (witness): the amended theorem applied to the password
`"password"` and the challenge `0x00..0x0F` with a concrete cipher. -/
theorem C2_witness :
    (∀ b ∈ passwordBytes, b < 256) ∧
    ((vncDesKey passwordBytes).length = 8 ∧
     sendPassword (fun k c => k ++ c) passwordBytes
         [0, 1, 2, 3, 4, 5, 6, 7, 8, 9, 10, 11, 12, 13, 14, 15] =
       (fun (k c : List Nat) => k ++ c) (vncDesKey passwordBytes)
         [0, 1, 2, 3, 4, 5, 6, 7, 8, 9, 10, 11, 12, 13, 14, 15] ∧
     (∀ i, i < 8 → ∀ j, j < 8 →
       ((vncDesKey passwordBytes).getD i 0).testBit (7 - j) =
       ((passwordBytes.take 8 ++
         List.replicate (8 - passwordBytes.length) 0).getD i 0).testBit j) ∧
     vncDesKey passwordBytes = [0x0E, 0x86, 0xCE, 0xCE, 0xEE, 0xF6, 0x4E, 0x26]) :=
  ⟨by decide,
   C2_vnc_des (fun k c => k ++ c) passwordBytes
     [0, 1, 2, 3, 4, 5, 6, 7, 8, 9, 10, 11, 12, 13, 14, 15] (by decide)⟩

/-! ## C3 — CoRRE subrectangles -/

/-- C3: the claim (and spec §4.4/§9) say a CoRRE rectangle with
`nSub > 0` fills all `nSub` subrectangles, consuming the whole
`(bypp + 4) * nSub`-byte block; the code instead raises
`struct.error` on the first subrectangle, because the format string
`"!{self.bypp}sBBBB"` of `_handleDecodeCORRERectangles` is missing its
`f` prefix and so contains literal braces (and even with a valid
format, its loop runs `while pos < sz`, touching only the first
subrectangle).  Evaluated here for `bypp = 4`, a 10×10 rectangle with
`nSub = 2` and a well-formed 16-byte subrectangle block. -/
theorem C3_corre_code_raises :
    structFormatOk correFormatChars = false ∧
    handleDecodeCORRE 4 0 0 10 10 [0, 0, 0, 2, 1, 2, 3, 4]
      [10, 10, 10, 10, 0, 0, 2, 2, 20, 20, 20, 20, 4, 4, 2, 2] = none := by decide

/-! ## C4 — PseudoLastRect termination -/

/-- Processing `reals ++ [lastRect] ++ rest` with more pending
rectangles than `reals`: every real rectangle is recorded, the
last-rect header zeroes the pending count, and `_doConnection` commits
the accumulated positions exactly when there are any. -/
theorem doConnectionLoop_reals (item : RectItem) (rest : List RectItem)
    (henc : item.enc = .lastRect) :
    ∀ (reals : List RectItem) (pending : Nat) (posL : List Rect),
    (∀ it ∈ reals, it.enc.isReal = true) → reals.length < pending →
    doConnectionLoop pending posL (reals ++ item :: rest) =
      (if (posL ++ reals.map RectItem.rect).isEmpty then UpdOutcome.noCommit rest
       else UpdOutcome.committed (posL ++ reals.map RectItem.rect) rest) := by
  intro reals
  induction reals with
  | nil =>
    intro pending posL _ hlt
    obtain ⟨p, rfl⟩ : ∃ p, pending = p + 1 := ⟨pending - 1, by omega⟩
    simp [doConnectionLoop, henc]
  | cons r rs ih =>
    intro pending posL hreal hlt
    obtain ⟨p, rfl⟩ : ∃ p, pending = p + 1 := ⟨pending - 1, by omega⟩
    have hr : r.enc.isReal = true := hreal r (List.mem_cons_self _ _)
    have hrs : ∀ it ∈ rs, it.enc.isReal = true :=
      fun it hit => hreal it (List.mem_cons_of_mem _ hit)
    have hlt' : rs.length < p := by simp at hlt; omega
    have hnotlast : ¬ r.enc = .lastRect := by
      intro h
      rw [h] at hr
      simp [Enc.isReal] at hr
    simp only [List.cons_append, doConnectionLoop, if_neg hnotlast]
    cases hre : r.enc <;> simp [hre, Enc.isReal] at hr ⊢ <;>
      rw [ih p (posL ++ [r.rect]) hrs hlt'] <;> simp

/-- C4 (counterexample): when the *first* rectangle of an update
carries `PSEUDO_LAST_RECT` (`k = 1`), the claim asserts `commitUpdate`
is invoked with the (empty) list of the `k - 1 = 0` preceding
positions; the code's `if self.rectanglePos:` guard skips the commit
instead. -/
theorem C4_counterexample :
    (processUpdate 100 [⟨(0, 0, 1, 1), .lastRect⟩]).didCommit = false := by decide

/-- C4 (amended): if a FramebufferUpdate declares `n` rectangles and
the `k`-th rectangle (`2 ≤ k ≤ n`) carries `PSEUDO_LAST_RECT`, the
pending count becomes 0, exactly the `k - 1` preceding real
rectangles are processed, and `commitUpdate` is invoked with their
positions before returning to message dispatch; for `k = 1` no commit
occurs. -/
theorem C4_last_rect (n : Nat) (reals : List RectItem) (item : RectItem)
    (rest : List RectItem) (hreal : ∀ it ∈ reals, it.enc.isReal = true)
    (hne : reals ≠ []) (hlt : reals.length < n) (henc : item.enc = .lastRect) :
    processUpdate n (reals ++ item :: rest) =
      .committed (reals.map RectItem.rect) rest := by
  unfold processUpdate
  rw [doConnectionLoop_reals item rest henc reals n [] hreal hlt]
  simp [List.isEmpty_iff, hne]

/-- C4 (witness): the spec's own scenario shape — an update declaring
100 rectangles whose 5th rectangle is `PSEUDO_LAST_RECT`: exactly the
4 preceding rectangles are processed and committed. -/
theorem C4_witness :
    (∀ it ∈ ([⟨(0, 0, 1, 1), .raw⟩, ⟨(1, 0, 1, 1), .copyRect⟩,
              ⟨(2, 0, 2, 2), .hextile⟩, ⟨(3, 0, 1, 1), .zrle⟩] : List RectItem),
       it.enc.isReal = true) ∧
    processUpdate 100
      ([⟨(0, 0, 1, 1), .raw⟩, ⟨(1, 0, 1, 1), .copyRect⟩,
        ⟨(2, 0, 2, 2), .hextile⟩, ⟨(3, 0, 1, 1), .zrle⟩] ++
       ⟨(9, 9, 9, 9), .lastRect⟩ :: [⟨(5, 5, 5, 5), .raw⟩]) =
      .committed ([⟨(0, 0, 1, 1), .raw⟩, ⟨(1, 0, 1, 1), .copyRect⟩,
                   ⟨(2, 0, 2, 2), .hextile⟩, ⟨(3, 0, 1, 1), .zrle⟩].map RectItem.rect)
        [⟨(5, 5, 5, 5), .raw⟩] :=
  ⟨by decide,
   C4_last_rect 100
     [⟨(0, 0, 1, 1), .raw⟩, ⟨(1, 0, 1, 1), .copyRect⟩,
      ⟨(2, 0, 2, 2), .hextile⟩, ⟨(3, 0, 1, 1), .zrle⟩]
     ⟨(9, 9, 9, 9), .lastRect⟩ [⟨(5, 5, 5, 5), .raw⟩]
     (by decide) (by decide) (by decide) rfl⟩

/-! ## C5 — ZRLE run lengths -/

set_option maxRecDepth 10000 in
/-- C5: in ZRLE RLE decoding, a run length is 1 plus the sum of
consecutive run-length bytes up to and including the first byte < 255
(`zrleRunLen` returns the sum; the decoder emits `sum + 1` pixels);
and a palette+RLE run with a high-bit-set index byte (here `0x82`,
selecting palette entry 2) followed by run bytes `[0xFF, 0xFF, 0x03]`
emits exactly `255 + 255 + 3 + 1 = 514` pixels of that entry,
consuming the whole input. -/
theorem C5_zrle_run_length (m b : Nat) (rest : List Nat) (hb : b < 255) :
    zrleRunLen (List.replicate m 255 ++ b :: rest) = some (255 * m + b, rest) ∧
    zrlePaletteRle [(0, 0, 0), (1, 1, 1), (2, 2, 2)] 514 [130, 255, 255, 3] =
      some (List.replicate 514 ((2, 2, 2) : Color), []) := by
  constructor
  · induction m with
    | zero =>
      have hne : b ≠ 255 := by omega
      simp [zrleRunLen, hne]
    | succ m ih =>
      simp only [List.replicate_succ, List.cons_append, zrleRunLen, List.append_eq]
      simp [ih]
      omega
  · decide

/-- C5 (witness): the run-length rule applied to the run bytes
`[0xFF, 0xFF, 0x03]` themselves (`m = 2`, final byte 3). -/
theorem C5_witness :
    (3 < 255) ∧
    (zrleRunLen (List.replicate 2 255 ++ 3 :: []) = some (255 * 2 + 3, []) ∧
     zrlePaletteRle [(0, 0, 0), (1, 1, 1), (2, 2, 2)] 514 [130, 255, 255, 3] =
       some (List.replicate 514 ((2, 2, 2) : Color), [])) :=
  ⟨by decide, C5_zrle_run_length 2 3 [] (by decide)⟩

/-! ## C6 — desktop resize -/

/-- The pixel a resized or freshly created canvas shows at `(x, y)`:
the original screen's pixel when `(x, y)` was inside it, black
otherwise. -/
def origOrBlack (st : ClientState) (x y : Nat) : Color :=
  match st.screen with
  | some s => if x < s.w ∧ y < s.h then s.pix x y else (0, 0, 0)
  | none => (0, 0, 0)

/-- One valid `updateDesktopSize(w, h)` call: the screen becomes a
`w × h` canvas showing the old content at the origin (clipped) and
black elsewhere; no other field changes. -/
theorem updateDesktopSize_spec (st : ClientState) (w h : Nat)
    (hw : w < MAX_DESKTOP_SIZE) (hh : h < MAX_DESKTOP_SIZE) :
    ∃ scr, updateDesktopSize st w h = some { st with screen := some scr } ∧
      scr.w = w ∧ scr.h = h ∧
      ∀ x y, x < w → y < h → scr.pix x y = origOrBlack st x y := by
  unfold updateDesktopSize
  rw [if_pos ⟨hw, hh⟩]
  cases hs : st.screen with
  | none =>
    refine ⟨Img.new w h, by simp [hs], rfl, rfl, ?_⟩
    intro x y hx hy
    simp [Img.new, origOrBlack, hs]
  | some s =>
    refine ⟨(Img.new w h).paste s 0 0, by simp [hs], rfl, rfl, ?_⟩
    intro x y hx hy
    simp only [Img.paste, origOrBlack, hs, Img.new]
    by_cases hxs : x < s.w ∧ y < s.h
    · rw [if_pos ⟨by omega, by omega, by omega, by omega⟩, if_pos hxs]
      have hx' : (((x : Int)) - 0).toNat = x := by omega
      have hy' : (((y : Int)) - 0).toNat = y := by omega
      rw [hx', hy']
    · rw [if_neg, if_neg hxs]
      intro ⟨_, h1, _, h2⟩
      exact hxs ⟨by omega, by omega⟩

theorem applyDesktopSizes_cons (st st₁ : ClientState) (c : Nat × Nat)
    (tl : List (Nat × Nat)) (h : updateDesktopSize st c.1 c.2 = some st₁) :
    applyDesktopSizes st (c :: tl) = applyDesktopSizes st₁ tl := by
  unfold applyDesktopSizes
  simp [List.foldl_cons, h]

/-- C6 (counterexample): starting from a 2×2 screen whose pixel
`(1, 1)` is non-black (so `x < w_old ∧ y < h_old`), the call sequence
`updateDesktopSize(1,1); updateDesktopSize(2,2)` ends with the size of
the last call but the pixel is black: resizes are not monotone upward
and the pixel was not preserved. -/
theorem C6_counterexample :
    screen2x2.pix 1 1 = (5, 5, 5) ∧
    (applyDesktopSizes { screen := some screen2x2 } [(1, 1), (2, 2)]).map
      (fun st => st.screen.map (fun s => (s.w, s.h, s.pix 1 1))) =
    some (some (2, 2, (0, 0, 0))) := by decide

/-- C6 (amended): after any non-empty sequence of valid
`updateDesktopSize` calls, the framebuffer's final width and height
equal the arguments of the last call; a pixel at `(x, y)` of the
original screen is preserved whenever `(x, y)` lies within *every*
requested size (in particular whenever the sizes only grow), and
positions outside the original screen that stay within every requested
size are zero-filled black.  Shrinking calls are accepted and discard
content (resizes are not forced to be monotone). -/
theorem C6_desktop_size (st : ClientState) :
    ∀ (calls : List (Nat × Nat)) (hne : calls ≠ []),
    (∀ c ∈ calls, c.1 < MAX_DESKTOP_SIZE ∧ c.2 < MAX_DESKTOP_SIZE) →
    ∃ st' scr, applyDesktopSizes st calls = some st' ∧ st'.screen = some scr ∧
      scr.w = (calls.getLast hne).1 ∧ scr.h = (calls.getLast hne).2 ∧
      ∀ x y, (∀ c ∈ calls, x < c.1 ∧ y < c.2) →
        scr.pix x y = origOrBlack st x y := by
  intro calls
  induction calls generalizing st with
  | nil => intro hne; exact absurd rfl hne
  | cons c tl ih =>
    intro hne hvalid
    have hc := hvalid c (List.mem_cons_self _ _)
    have htl : ∀ c' ∈ tl, c'.1 < MAX_DESKTOP_SIZE ∧ c'.2 < MAX_DESKTOP_SIZE :=
      fun c' hc' => hvalid c' (List.mem_cons_of_mem _ hc')
    obtain ⟨scr₁, hupd, hw₁, hh₁, hpix₁⟩ := updateDesktopSize_spec st c.1 c.2 hc.1 hc.2
    cases tl with
    | nil =>
      refine ⟨{ st with screen := some scr₁ }, scr₁, ?_, rfl,
        by simp [hw₁], by simp [hh₁], ?_⟩
      · rw [applyDesktopSizes_cons st _ c [] hupd]
        rfl
      · intro x y hxy
        have h1 := hxy c (List.mem_cons_self _ _)
        exact hpix₁ x y h1.1 h1.2
    | cons c₂ tl₂ =>
      have htlne : (c₂ :: tl₂) ≠ [] := by simp
      obtain ⟨st', scr, happ, hscr, hws, hhs, hpix⟩ :=
        ih { st with screen := some scr₁ } htlne htl
      refine ⟨st', scr, ?_, hscr, ?_, ?_, ?_⟩
      · rw [applyDesktopSizes_cons st _ c _ hupd]
        exact happ
      · rwa [List.getLast_cons htlne]
      · rwa [List.getLast_cons htlne]
      · intro x y hxy
        have hin₁ := hxy c (List.mem_cons_self _ _)
        have hrec : scr.pix x y = origOrBlack { st with screen := some scr₁ } x y :=
          hpix x y (fun c' hc' => hxy c' (List.mem_cons_of_mem _ hc'))
        rw [hrec]
        simp only [origOrBlack]
        rw [if_pos ⟨hw₁ ▸ hin₁.1, hh₁ ▸ hin₁.2⟩]
        exact hpix₁ x y hin₁.1 hin₁.2

/-- C6 (witness): the amended theorem applied to a fresh client and
the single call `updateDesktopSize(2, 3)`. -/
theorem C6_witness :
    ∃ st' scr, applyDesktopSizes {} [(2, 3)] = some st' ∧ st'.screen = some scr ∧
      scr.w = (([(2, 3)] : List (Nat × Nat)).getLast (by simp)).1 ∧
      scr.h = (([(2, 3)] : List (Nat × Nat)).getLast (by simp)).2 ∧
      ∀ x y, (∀ c ∈ ([(2, 3)] : List (Nat × Nat)), x < c.1 ∧ y < c.2) →
        scr.pix x y = origOrBlack {} x y :=
  C6_desktop_size {} [(2, 3)] (by simp) (by decide)

/-! ## C7 — PseudoCursor zero-size handling -/

/-- C7: the claim (and spec §9) says a PseudoCursor rectangle with
`w == 0 ∨ h == 0` clears the cursor and returns without constructing a
new cursor image.  In the code the guard `if not width or not height:
self.cursor = None` does not return: for a 0×5 cursor rectangle on a
client that had a cursor, the handler falls through and rebuilds
`cursor` (a 0×5 image), `cmask` and `cfocus` from the empty payload,
so afterwards the cursor is *not* cleared.  (With Pillow < 10,
`Image.frombytes` raises `ValueError` on the zero size instead — the
cursor is still not left cleared-and-returned.) -/
theorem C7_cursor_not_cleared :
    (updateCursor stWithCursor 1 2 0 5 [] []).map
      (fun st => (st.cursor.isSome, st.cursor.map (fun c => (c.w, c.h)),
                  st.cmask.isSome, st.cfocus)) =
    some (true, some (0, 5), true, (1, 2)) := by rfl

/-! ## C8 — PixelFormat round-trip -/

/-- C8: for every valid `PixelFormat`, packing succeeds, the wire form
is exactly 16 bytes, and unpacking it returns the same format. -/
theorem C8_pixelformat_roundtrip (pf : PixelFormat) (h : pf.valid) :
    ∃ bs, pf.to_bytes = some bs ∧ bs.length = 16 ∧
      PixelFormat.from_bytes bs = some pf := by
  obtain ⟨hbpp, hd1, hd2, hr, hg, hb, hrs, hgs, hbs⟩ := h
  have hbpp' : pf.bpp ≤ 255 := by rcases hbpp with h | h | h | h <;> omega
  have hbpp32 : pf.bpp ≤ 32 := by rcases hbpp with h | h | h | h <;> omega
  have hdep : pf.depth ≤ 255 := by omega
  have hrs' : pf.redshift ≤ 255 := le_trans hrs (le_trans (Nat.sub_le _ _) (by omega))
  have hgs' : pf.greenshift ≤ 255 := le_trans hgs (le_trans (Nat.sub_le _ _) (by omega))
  have hbs' : pf.blueshift ≤ 255 := le_trans hbs (le_trans (Nat.sub_le _ _) (by omega))
  unfold PixelFormat.to_bytes
  rw [if_pos ⟨hbpp', hdep, hr.2.1, hg.2.1, hb.2.1, hrs', hgs', hbs'⟩]
  refine ⟨_, rfl, rfl, ?_⟩
  unfold PixelFormat.from_bytes
  simp only [Option.some.injEq]
  cases pf with
  | mk bpp depth bigendian truecolor rm gm bm rs gs bs =>
    simp only [PixelFormat.mk.injEq]
    exact ⟨trivial, trivial, by cases bigendian <;> rfl, by cases truecolor <;> rfl,
      by omega, by omega, by omega, trivial, trivial, trivial⟩

/-- C8 (witness): the round-trip applied to the default pixel format
(RGB32). -/
theorem C8_witness :
    PixelFormat.valid {} ∧
    ∃ bs, PixelFormat.to_bytes {} = some bs ∧ bs.length = 16 ∧
      PixelFormat.from_bytes bs = some {} :=
  ⟨by decide, C8_pixelformat_roundtrip {} (by decide)⟩

/-! ## C9 — mouseDrag interpolation -/

/-- C9 (counterexample): `mouseDrag(10, 0, step=5)` with the tracked
pointer at `(0, 0)` emits pointer events at `(5, 0)` and `(10, 0)`
only — no event is emitted at the starting position `(0, 0)`, contrary
to the claimed event sequence `(0,0), (5,0), (10,0)`. -/
theorem C9_counterexample :
    (mouseDrag {} 10 0 5).events = [(5, 0, 0), (10, 0, 0)] ∧
    (mouseDrag {} 10 0 5).events ≠ [(0, 0, 0), (5, 0, 0), (10, 0, 0)] := by decide

/-- C9 (amended): `mouseDrag(10, 0, step=5)` with the tracked pointer
at `(0, 0)` emits pointer-move events at `(5, 0)` then `(10, 0)` in
that order (the starting position is not re-emitted; the 200 ms pauses
between moves do not affect the state), and afterwards the tracked
pointer position equals `(10, 0)` with the button mask unchanged. -/
theorem C9_mouse_drag :
    (mouseDrag {} 10 0 5).events = [(5, 0, 0), (10, 0, 0)] ∧
    (mouseDrag {} 10 0 5).x = 10 ∧ (mouseDrag {} 10 0 5).y = 0 ∧
    (mouseDrag {} 10 0 5).buttons = 0 := by decide

/-! ## C10 — empty updateRectangle -/

/-- C10: `updateRectangle` with an empty data byte string returns
immediately with the client state (screen, cursor, tracked pointer and
all other fields) completely unchanged. -/
theorem C10_empty_update (st : ClientState) (x y w h : Nat) :
    updateRectangle st x y w h [] = some st := rfl

end VncDoTool
